import Mathlib

/-!
Shallow embedding of the in-memory e-commerce data store of this repository
(`src/data/store.ts`, models in `src/data/models.ts`) together with the
caller-facing product-creation policy (`src/mastra/tools/products/add-product.ts`),
and proofs about the embedded operations.

Modelling conventions:
* JavaScript `number` is embedded as `ℚ` for currency/price/weight fields and as
  `ℤ` for stock counts and sale quantities (the code does only `+`, `-`, `max 0`
  and comparisons on these, which ℚ/ℤ reproduce exactly).
* `Date` values are embedded as `ℤ` epoch milliseconds; JS `Date` comparison is
  numeric comparison of epoch milliseconds.
* A JS `Map<string, V>` is embedded as an insertion-ordered association list
  `List (String × V)`: `Map.get` is the first matching key, `Map.set` replaces
  in place when the key is present and appends otherwise, and `values()`
  iterates in insertion order — exactly the JS semantics.
* A JS `Set<string>` is embedded as an insertion-ordered duplicate-free list.
* Nondeterministic identifier generation (`Date.now()` + `Math.random()` in
  `addProduct` / `addSale`) and wall-clock reads (`new Date()`) are embedded as
  explicit oracle parameters (`freshId`, `now`).
-/

namespace AriaStore

/-- JS `String.prototype.toLowerCase` (over the character data). -/
def strLower (s : String) : String := String.mk (s.data.map Char.toLower)

/-- Tests whether the first character list starts the second, written out so
the embedding is self-contained. -/
def charsPrefixOf : List Char → List Char → Bool
  | [], _ => true
  | _ :: _, [] => false
  | a :: as, b :: bs => a == b && charsPrefixOf as bs

/-- Does `l` contain `sub` as a contiguous run? -/
def charsContain (sub : List Char) : List Char → Bool
  | [] => charsPrefixOf sub []
  | c :: cs => charsPrefixOf sub (c :: cs) || charsContain sub (c :: cs).tail

/-- JS `String.prototype.includes`. -/
def strIncludes (s sub : String) : Bool := charsContain sub.data s.data

/-- JS truthiness of an optional string (`undefined` and `""` are falsy). -/
def strTruthy : Option String → Bool
  | none => false
  | some s => s ≠ ""

/-! ## Insertion-ordered association lists (JS `Map<string, V>`) -/

/-- Source `Map.prototype.get`: value of the first (unique) matching key. -/
def amapGet {α : Type} (l : List (String × α)) (k : String) : Option α :=
  match l.find? (fun kv => kv.1 == k) with
  | some kv => some kv.2
  | none => none

/-- Source `Map.prototype.set`: replace in place if the key is present, else append. -/
def amapSet {α : Type} (l : List (String × α)) (k : String) (v : α) :
    List (String × α) :=
  match l with
  | [] => [(k, v)]
  | (k', v') :: rest =>
      if k' == k then (k, v) :: rest else (k', v') :: amapSet rest k v

/-- Source `Map.prototype.delete` (the removal part; the Bool result is separate). -/
def amapDelete {α : Type} (l : List (String × α)) (k : String) :
    List (String × α) :=
  match l with
  | [] => []
  | (k', v') :: rest =>
      if k' == k then rest else (k', v') :: amapDelete rest k

/-- Source `Set.prototype.add` on an insertion-ordered string set. -/
def osetAdd (l : List String) (x : String) : List String :=
  if l.contains x then l else l ++ [x]

/-! ## Data model (`src/data/models.ts`) -/

/-- Source `dimensions?: { length, width, height }` on a product. -/
structure Dimensions where
  length : ℚ
  width : ℚ
  height : ℚ
  deriving Repr, DecidableEq

/-- The `Product` interface. -/
structure Product where
  id : String
  name : String
  description : String
  price : ℚ
  category : String
  subcategory : Option String := none
  collection : Option String := none
  stock : ℤ
  isVisible : Bool
  tags : List String
  sku : Option String := none
  images : Option (List String) := none
  weight : Option ℚ := none
  dimensions : Option Dimensions := none
  createdAt : ℤ
  updatedAt : ℤ
  deriving Repr, DecidableEq

/-- The `Address` interface. -/
structure Address where
  street : String
  city : String
  state : String
  zipCode : String
  country : String
  deriving Repr, DecidableEq

/-- The `status` enum of a sale. -/
inductive SaleStatus where
  | pending | processing | shipped | delivered | cancelled
  deriving Repr, DecidableEq

/-- The `Sale` interface. -/
structure Sale where
  id : String
  productId : String
  productName : String
  quantity : ℤ
  unitPrice : ℚ
  totalAmount : ℚ
  customerEmail : String
  customerName : Option String := none
  shippingAddress : Option Address := none
  status : SaleStatus
  paymentMethod : String
  timestamp : ℤ
  deriving Repr, DecidableEq

/-- The `StockOperation` interface. -/
inductive StockOpKind where
  | add | subtract | set
  deriving Repr, DecidableEq

/-- A stock operation: kind, quantity, optional free-text reason. -/
structure StockOperation where
  operation : StockOpKind
  quantity : ℤ
  reason : Option String := none
  deriving Repr, DecidableEq

/-- The `DateRange` interface (epoch milliseconds). -/
structure DateRange where
  start : ℤ
  stop : ℤ
  deriving Repr, DecidableEq

/-- Source type Omit of Product dropping id, createdAt and updatedAt: the
caller-supplied part of a new product. -/
structure ProductData where
  name : String
  description : String
  price : ℚ
  category : String
  subcategory : Option String := none
  collection : Option String := none
  stock : ℤ
  isVisible : Bool
  tags : List String
  sku : Option String := none
  images : Option (List String) := none
  weight : Option ℚ := none
  dimensions : Option Dimensions := none
  deriving Repr, DecidableEq

/-- Source type Omit of Sale dropping id: the caller-supplied part of a new
sale. -/
structure SaleData where
  productId : String
  productName : String
  quantity : ℤ
  unitPrice : ℚ
  totalAmount : ℚ
  customerEmail : String
  customerName : Option String := none
  shippingAddress : Option Address := none
  status : SaleStatus
  paymentMethod : String
  timestamp : ℤ
  deriving Repr, DecidableEq

/-- Source type Partial Omit of Product dropping id and createdAt, used by
`updateProduct`: each field is overwritten exactly when supplied. -/
structure ProductUpdates where
  name : Option String := none
  description : Option String := none
  price : Option ℚ := none
  category : Option String := none
  subcategory : Option (Option String) := none
  collection : Option (Option String) := none
  stock : Option ℤ := none
  isVisible : Option Bool := none
  tags : Option (List String) := none
  sku : Option (Option String) := none
  images : Option (Option (List String)) := none
  weight : Option (Option ℚ) := none
  dimensions : Option (Option Dimensions) := none
  updatedAt : Option ℤ := none
  deriving Repr, DecidableEq

/-- The `StoreMetrics` interface (`topProducts` entries). -/
structure TopProductEntry where
  id : String
  name : String
  sales : ℚ
  deriving Repr, DecidableEq

/-- The `StoreMetrics` interface (`lowStockAlerts` entries). -/
structure LowStockAlert where
  id : String
  name : String
  stock : ℤ
  deriving Repr, DecidableEq

/-- The `StoreMetrics` interface (`categoryPerformance` entries). -/
structure CategoryPerf where
  category : String
  revenue : ℚ
  orders : ℕ
  deriving Repr, DecidableEq

/-- The `StoreMetrics` interface (`revenueByPeriod`). -/
structure RevenueByPeriod where
  daily : ℚ
  weekly : ℚ
  monthly : ℚ
  deriving Repr, DecidableEq

/-- The `StoreMetrics` interface. -/
structure StoreMetrics where
  totalSales : ℚ
  totalOrders : ℕ
  avgOrderValue : ℚ
  topProducts : List TopProductEntry
  lowStockAlerts : List LowStockAlert
  revenueByPeriod : RevenueByPeriod
  categoryPerformance : List CategoryPerf
  deriving Repr, DecidableEq

/-- The mutable state of `class EcommerceDataStore`. -/
structure EcommerceDataStore where
  products : List (String × Product)
  sales : List Sale
  categories : List String
  collections : List String
  deriving Repr, DecidableEq

namespace EcommerceDataStore

/-- Source `getProduct(id)`: exact key lookup. -/
def getProduct (s : EcommerceDataStore) (id : String) : Option Product :=
  amapGet s.products id

/-- Source `getProductByName(name)`: first product (insertion order) whose name
contains the fragment, case-insensitively. -/
def getProductByName (s : EcommerceDataStore) (name : String) : Option Product :=
  (s.products.map Prod.snd).find?
    (fun product => strIncludes (strLower product.name) (strLower name))

/-- Source `getProductBySku(sku)`: exact case-sensitive scan (`product.sku === sku`). -/
def getProductBySku (s : EcommerceDataStore) (sku : String) : Option Product :=
  (s.products.map Prod.snd).find? (fun product => product.sku == some sku)

/-- The product record built by `addProduct` (spread of `productData` plus
generated `id` and `createdAt = updatedAt = now`). -/
def mkProduct (productData : ProductData) (freshId : String) (now : ℤ) : Product :=
  { id := freshId
    name := productData.name
    description := productData.description
    price := productData.price
    category := productData.category
    subcategory := productData.subcategory
    collection := productData.collection
    stock := productData.stock
    isVisible := productData.isVisible
    tags := productData.tags
    sku := productData.sku
    images := productData.images
    weight := productData.weight
    dimensions := productData.dimensions
    createdAt := now
    updatedAt := now }

/-- Register `category`/`collection` in the tracking sets (the
`categories.add` / `if (collection) collections.add` lines). -/
def registerSets (s : EcommerceDataStore) (category : String)
    (collection : Option String) : EcommerceDataStore :=
  { s with
    categories := osetAdd s.categories category
    collections :=
      if strTruthy collection then osetAdd s.collections (collection.getD "")
      else s.collections }

/-- Source `addProduct(productData)`. `freshId`/`now` stand for the generated id and
`new Date()`. Returns the new state and the returned product. -/
def addProduct (s : EcommerceDataStore) (productData : ProductData)
    (freshId : String) (now : ℤ) : EcommerceDataStore × Product :=
  let newProduct := mkProduct productData freshId now
  let s' := { s with products := amapSet s.products newProduct.id newProduct }
  (registerSets s' newProduct.category newProduct.collection, newProduct)

/-- Source `{ ...product, ...updates, updatedAt: new Date() }`. -/
def mergeUpdates (product : Product) (updates : ProductUpdates) (now : ℤ) :
    Product :=
  { id := product.id
    name := updates.name.getD product.name
    description := updates.description.getD product.description
    price := updates.price.getD product.price
    category := updates.category.getD product.category
    subcategory := updates.subcategory.getD product.subcategory
    collection := updates.collection.getD product.collection
    stock := updates.stock.getD product.stock
    isVisible := updates.isVisible.getD product.isVisible
    tags := updates.tags.getD product.tags
    sku := updates.sku.getD product.sku
    images := updates.images.getD product.images
    weight := updates.weight.getD product.weight
    dimensions := updates.dimensions.getD product.dimensions
    createdAt := product.createdAt
    updatedAt := now }

/-- Source `updateProduct(id, updates)`: merge over the existing record, stamp a fresh
`updatedAt`, re-register category/collection; `null` if the id is unknown. -/
def updateProduct (s : EcommerceDataStore) (id : String)
    (updates : ProductUpdates) (now : ℤ) :
    EcommerceDataStore × Option Product :=
  match amapGet s.products id with
  | none => (s, none)
  | some product =>
      let updatedProduct := mergeUpdates product updates now
      let s' := { s with products := amapSet s.products id updatedProduct }
      (registerSets s' updatedProduct.category updatedProduct.collection,
        some updatedProduct)

/-- Source `deleteProduct(id)`. -/
def deleteProduct (s : EcommerceDataStore) (id : String) :
    EcommerceDataStore × Bool :=
  ({ s with products := amapDelete s.products id },
    (amapGet s.products id).isSome)

/-- The `switch (stockOperation.operation)` block of `updateStock`: the new
stock value. -/
def applyStockOp (stock : ℤ) (stockOperation : StockOperation) : ℤ :=
  match stockOperation.operation with
  | .add => stock + stockOperation.quantity
  | .subtract => max 0 (stock - stockOperation.quantity)
  | .set => max 0 stockOperation.quantity

/-- Source `updateStock(productId, stockOperation)`: add / subtract-with-floor /
set-with-floor, stamping `updatedAt`; `false` when the id is unknown. -/
def updateStock (s : EcommerceDataStore) (productId : String)
    (stockOperation : StockOperation) (now : ℤ) :
    EcommerceDataStore × Bool :=
  match amapGet s.products productId with
  | none => (s, false)
  | some product =>
      let newStock : ℤ := applyStockOp product.stock stockOperation
      ({ s with
          products := amapSet s.products productId
            { product with stock := newStock, updatedAt := now } },
        true)

/-- Source `getLowStockProducts(threshold = 10)`. -/
def getLowStockProducts (s : EcommerceDataStore) (threshold : ℤ := 10) :
    List Product :=
  (s.products.map Prod.snd).filter
    (fun p => p.stock ≤ threshold && p.stock > 0)

/-- Source `getStockLevel(productId)` (`-1` when the id is unknown). -/
def getStockLevel (s : EcommerceDataStore) (productId : String) : ℤ :=
  match amapGet s.products productId with
  | some product => product.stock
  | none => -1

/-- Source `addSale(saleData)`: append the sale, then subtract its quantity from the
referenced product's stock. `freshId`/`now` stand for the generated id and the
`new Date()` inside `updateStock`. -/
def addSale (s : EcommerceDataStore) (saleData : SaleData) (freshId : String)
    (now : ℤ) : EcommerceDataStore × Sale :=
  let newSale : Sale :=
    { id := freshId
      productId := saleData.productId
      productName := saleData.productName
      quantity := saleData.quantity
      unitPrice := saleData.unitPrice
      totalAmount := saleData.totalAmount
      customerEmail := saleData.customerEmail
      customerName := saleData.customerName
      shippingAddress := saleData.shippingAddress
      status := saleData.status
      paymentMethod := saleData.paymentMethod
      timestamp := saleData.timestamp }
  let s₁ := { s with sales := s.sales ++ [newSale] }
  let s₂ := (updateStock s₁ saleData.productId
    { operation := .subtract
      quantity := saleData.quantity
      reason := some ("Sale: " ++ newSale.id) } now).1
  (s₂, newSale)

/-- Source `getSalesByDateRange(start, end)`: inclusive-bounds filter of the sale log. -/
def getSalesByDateRange (s : EcommerceDataStore) (start stop : ℤ) : List Sale :=
  s.sales.filter (fun sale => start ≤ sale.timestamp && sale.timestamp ≤ stop)

end EcommerceDataStore

/-! ## Stable descending sort

`Array.prototype.sort` with comparator `(a, b) => key(b) - key(a)` is, per the
ECMAScript specification, a stable sort into descending `key` order; we embed it
as a stable insertion sort. -/

/-- Insert `x` after every element with strictly greater key (stability: among
equal keys the earlier element stays first). -/
def insertDesc {α β : Type} [LinearOrder β] (key : α → β) (x : α) :
    List α → List α
  | [] => [x]
  | y :: ys => if key x < key y then y :: insertDesc key x ys else x :: y :: ys

/-- Stable sort into descending `key` order. -/
def sortDescBy {α β : Type} [LinearOrder β] (key : α → β) : List α → List α
  | [] => []
  | x :: xs => insertDesc key x (sortDescBy key xs)

namespace EcommerceDataStore

/-- The `salesData` selection at the top of `getSalesAnalytics` /
`getTopSellingProducts`: the date-range filter when a range is given, else the
whole sale log. -/
def selectSales (s : EcommerceDataStore) (dateRange : Option DateRange) :
    List Sale :=
  match dateRange with
  | some range => getSalesByDateRange s range.start range.stop
  | none => s.sales

/-- The `forEach` body of the `productSales` grouping in `getSalesAnalytics`:
accumulate one sale's revenue under its productId, remembering the first seen
`productName`. -/
def revenueStep (acc : List (String × String × ℚ)) (sale : Sale) :
    List (String × String × ℚ) :=
  match amapGet acc sale.productId with
  | some entry =>
      amapSet acc sale.productId (entry.1, entry.2 + sale.totalAmount)
  | none => amapSet acc sale.productId (sale.productName, sale.totalAmount)

/-- The `productSales` grouping of `getSalesAnalytics`: per productId, the first
seen `productName` and the running sum of `totalAmount`. -/
def groupRevenue (salesData : List Sale) : List (String × String × ℚ) :=
  salesData.foldl revenueStep []

/-- The `forEach` body of the `categoryStats` grouping in `getSalesAnalytics`:
accumulate one sale's revenue and order count under the category of its
*currently stored* product; skip the sale when the product no longer resolves. -/
def categoryStep (s : EcommerceDataStore) (acc : List (String × ℚ × ℕ))
    (sale : Sale) : List (String × ℚ × ℕ) :=
  match getProduct s sale.productId with
  | some product =>
      match amapGet acc product.category with
      | some stats =>
          amapSet acc product.category
            (stats.1 + sale.totalAmount, stats.2 + 1)
      | none => amapSet acc product.category (sale.totalAmount, 1)
  | none => acc

/-- The `categoryStats` grouping of `getSalesAnalytics`. -/
def groupCategory (s : EcommerceDataStore) (salesData : List Sale) :
    List (String × ℚ × ℕ) :=
  salesData.foldl (categoryStep s) []

/-- The wall-clock inputs of `getSalesAnalytics`'s `revenueByPeriod` block:
`now` plus the local-calendar instants `today` (midnight), `thisWeekStart`
(Sunday midnight) and `thisMonthStart` (first of month, midnight) that the code
derives from `new Date()` through the host's timezone. -/
structure Clock where
  now : ℤ
  today : ℤ
  thisWeekStart : ℤ
  thisMonthStart : ℤ
  deriving Repr, DecidableEq

/-- Source `getSalesAnalytics(dateRange?)`. -/
def getSalesAnalytics (s : EcommerceDataStore) (dateRange : Option DateRange)
    (clock : Clock) : StoreMetrics :=
  let salesData := selectSales s dateRange
  let totalSales := (salesData.map Sale.totalAmount).sum
  let totalOrders := salesData.length
  let avgOrderValue := if totalOrders > 0 then totalSales / totalOrders else 0
  let topProducts :=
    ((sortDescBy (fun e => e.2.2) (groupRevenue salesData)).map
        (fun e => TopProductEntry.mk e.1 e.2.1 e.2.2)).take 5
  let dailySales := getSalesByDateRange s clock.today clock.now
  let weeklySales := getSalesByDateRange s clock.thisWeekStart clock.now
  let monthlySales := getSalesByDateRange s clock.thisMonthStart clock.now
  let revenueByPeriod : RevenueByPeriod :=
    { daily := (dailySales.map Sale.totalAmount).sum
      weekly := (weeklySales.map Sale.totalAmount).sum
      monthly := (monthlySales.map Sale.totalAmount).sum }
  let categoryPerformance :=
    (sortDescBy (fun e => e.2.1) (groupCategory s salesData)).map
      (fun e => CategoryPerf.mk e.1 e.2.1 e.2.2)
  { totalSales := totalSales
    totalOrders := totalOrders
    avgOrderValue := avgOrderValue
    topProducts := topProducts
    lowStockAlerts :=
      (getLowStockProducts s).map (fun p => LowStockAlert.mk p.id p.name p.stock)
    revenueByPeriod := revenueByPeriod
    categoryPerformance := categoryPerformance }

/-- The `productSales` grouping of `getTopSellingProducts`: per productId, the
running sum of `quantity`. -/
def groupQuantity (salesData : List Sale) : List (String × ℤ) :=
  salesData.foldl
    (fun acc sale =>
      amapSet acc sale.productId ((amapGet acc sale.productId).getD 0 + sale.quantity))
    []

/-- Source `getTopSellingProducts(limit = 5, period?)`: group quantities, sort
descending, take `limit`, resolve ids, drop unresolved ids. -/
def getTopSellingProducts (s : EcommerceDataStore) (limit : ℕ := 5)
    (period : Option DateRange := none) : List Product :=
  let salesData := selectSales s period
  let productSales := groupQuantity salesData
  ((sortDescBy (fun e => e.2) productSales).take limit).filterMap
    (fun e => getProduct s e.1)

/-- The payload of `exportData()` / the parameter of `importData`. -/
structure ExportedData where
  products : List Product
  sales : List Sale
  deriving Repr, DecidableEq

/-- Source `exportData()`: product values in iteration order plus a copy of the log. -/
def exportData (s : EcommerceDataStore) : ExportedData :=
  { products := s.products.map Prod.snd
    sales := s.sales }

/-- Source `importData(data)`: clear everything, re-insert each product keyed by its
own id, re-register categories/collections, replace the sale log. -/
def importData (s : EcommerceDataStore) (data : ExportedData) :
    EcommerceDataStore :=
  let cleared : EcommerceDataStore :=
    { s with products := [], sales := [], categories := [], collections := [] }
  let loaded := data.products.foldl
    (fun acc product =>
      registerSets { acc with products := amapSet acc.products product.id product }
        product.category product.collection)
    cleared
  { loaded with sales := data.sales }

end EcommerceDataStore

/-! ## Caller-facing product creation
(`src/mastra/tools/products/add-product.ts`, `addNewProduct.execute`). -/

/-- The two rejection cases of `addNewProduct.execute`. -/
inductive CreateProductError where
  | duplicateSKU (sku : String)
  | duplicateName (name : String)
  deriving Repr, DecidableEq

/-- The SKU guard of `addNewProduct.execute`: `if (productData.sku)` (JS
truthiness, so `undefined` and `""` skip the check) followed by a
`getProductBySku` hit. -/
def skuConflict (s : EcommerceDataStore) (sku : Option String) : Bool :=
  match sku with
  | none => false
  | some v => if v = "" then false else (s.getProductBySku v).isSome

/-- Source `addNewProduct.execute`: throw on SKU conflict, then on name conflict
(`getProductByName`, a case-insensitive substring scan), else delegate to
`addProduct`. -/
def createProduct (s : EcommerceDataStore) (productData : ProductData)
    (freshId : String) (now : ℤ) :
    Except CreateProductError (EcommerceDataStore × Product) :=
  if skuConflict s productData.sku then
    .error (.duplicateSKU (productData.sku.getD ""))
  else if (s.getProductByName productData.name).isSome then
    .error (.duplicateName productData.name)
  else
    .ok (s.addProduct productData freshId now)

/-! ## Repository operation sequences (for the stock invariant). -/

/-- One repository operation that can touch a product's `stock` field, with the
oracle inputs (`freshId`, `now`) made explicit. -/
inductive RepoOp where
  | addProduct (productData : ProductData) (freshId : String) (now : ℤ)
  | updateProduct (id : String) (updates : ProductUpdates) (now : ℤ)
  | updateStock (productId : String) (stockOperation : StockOperation) (now : ℤ)
  | addSale (saleData : SaleData) (freshId : String) (now : ℤ)
  | importData (data : EcommerceDataStore.ExportedData)
  deriving Repr

/-- Apply one repository operation to the store state. -/
def applyOp (s : EcommerceDataStore) : RepoOp → EcommerceDataStore
  | .addProduct productData freshId now => (s.addProduct productData freshId now).1
  | .updateProduct id updates now => (s.updateProduct id updates now).1
  | .updateStock productId stockOperation now =>
      (s.updateStock productId stockOperation now).1
  | .addSale saleData freshId now => (s.addSale saleData freshId now).1
  | .importData data => s.importData data

/-- Apply a sequence of repository operations in order. -/
def applyOps (s : EcommerceDataStore) (ops : List RepoOp) : EcommerceDataStore :=
  ops.foldl applyOp s

/-- Every product currently in the store has non-negative stock. -/
def StocksNonneg (s : EcommerceDataStore) : Prop :=
  ∀ kp ∈ s.products, 0 ≤ kp.2.stock

instance (s : EcommerceDataStore) : Decidable (StocksNonneg s) := by
  unfold StocksNonneg; infer_instance

/-- Well-formedness of the product map, maintained by every constructor of the
store: keys are pairwise distinct and each product is keyed by its own id. -/
def StoreWF (s : EcommerceDataStore) : Prop :=
  (s.products.map Prod.fst).Nodup ∧ ∀ kp ∈ s.products, kp.2.id = kp.1

instance (s : EcommerceDataStore) : Decidable (StoreWF s) := by
  unfold StoreWF; infer_instance

/-- The stock recorded for `id`, if any (`getProduct(id)?.stock`). -/
def stockOf (s : EcommerceDataStore) (id : String) : Option ℤ :=
  (s.getProduct id).map Product.stock

/-! ## Concrete data and auxiliary predicates used in the proofs -/

/-- A concrete product with 5 units in stock. -/
def demoProduct : Product :=
  { id := "p1", name := "Widget", description := "A widget", price := 10,
    category := "Misc", stock := 5, isVisible := true, tags := [],
    createdAt := 0, updatedAt := 0 }

/-- A one-product store holding `demoProduct`. -/
def demoStore : EcommerceDataStore :=
  { products := [("p1", demoProduct)], sales := [],
    categories := ["Misc"], collections := [] }

/-- A concrete product with 3 units in stock. -/
def lowProduct : Product :=
  { id := "p2", name := "Gadget", description := "A gadget", price := 7,
    category := "Misc", stock := 3, isVisible := true, tags := [],
    createdAt := 0, updatedAt := 0 }

/-- A one-product store holding `lowProduct`. -/
def lowStore : EcommerceDataStore :=
  { products := [("p2", lowProduct)], sales := [],
    categories := ["Misc"], collections := [] }

/-- A sale of 5 units of `lowProduct` (stock 3). -/
def lowSaleData : SaleData :=
  { productId := "p2", productName := "Gadget", quantity := 5, unitPrice := 7,
    totalAmount := 35, customerEmail := "a@example.com", status := .pending,
    paymentMethod := "card", timestamp := 0 }

/-- Precondition under which one repository operation cannot introduce negative
stock: caller-supplied stock values are non-negative and `add` quantities are
non-negative (`subtract` and `set` clamp on their own, and `addSale` only ever
subtracts). -/
def OpStockSafe : RepoOp → Prop
  | .addProduct productData _ _ => 0 ≤ productData.stock
  | .updateProduct _ updates _ => ∀ v, updates.stock = some v → 0 ≤ v
  | .updateStock _ op _ => op.operation = .add → 0 ≤ op.quantity
  | .addSale _ _ _ => True
  | .importData data => ∀ p ∈ data.products, 0 ≤ p.stock

/-- Total quantity sold for `pid` over a sale list. -/
def totalQty (sales : List Sale) (pid : String) : ℤ :=
  ((sales.filter (fun sale => sale.productId == pid)).map Sale.quantity).sum

/-- Revenue summed over all `categoryPerformance` entries of a metrics record. -/
def catRevSum (m : StoreMetrics) : ℚ :=
  (m.categoryPerformance.map CategoryPerf.revenue).sum

/-- The two-shirt store of the spec's determinism example. -/
def blueShirt : Product :=
  { id := "prod-1", name := "Blue T-Shirt", description := "Blue tee",
    price := 1999/100, category := "Clothing", stock := 25, isVisible := true,
    tags := [], createdAt := 0, updatedAt := 0 }

/-- The second product of the two-shirt store. -/
def redShirt : Product :=
  { id := "prod-2", name := "Red T-Shirt", description := "Red tee",
    price := 2199/100, category := "Clothing", stock := 10, isVisible := true,
    tags := [], createdAt := 0, updatedAt := 0 }

/-- Store holding "Blue T-Shirt" then "Red T-Shirt", in that insertion order. -/
def shirtStore : EcommerceDataStore :=
  { products := [("prod-1", blueShirt), ("prod-2", redShirt)], sales := [],
    categories := ["Clothing"], collections := [] }

/-- An empty store. -/
def emptyStore : EcommerceDataStore :=
  { products := [], sales := [], categories := [], collections := [] }

/-- Products for the top-selling example (quantities A:3, B:5, C:1). -/
def prodA : Product :=
  { id := "A", name := "Alpha", description := "a", price := 5,
    category := "Misc", stock := 10, isVisible := true, tags := [],
    createdAt := 0, updatedAt := 0 }

/-- Second product of the top-selling example. -/
def prodB : Product :=
  { id := "B", name := "Beta", description := "b", price := 6,
    category := "Misc", stock := 10, isVisible := true, tags := [],
    createdAt := 0, updatedAt := 0 }

/-- Third product of the top-selling example. -/
def prodC : Product :=
  { id := "C", name := "Gamma", description := "c", price := 7,
    category := "Misc", stock := 10, isVisible := true, tags := [],
    createdAt := 0, updatedAt := 0 }

/-- A sale of `q` units of product `pid`. -/
def mkSaleQ (sid pid : String) (q : ℤ) : Sale :=
  { id := sid, productId := pid, productName := pid, quantity := q,
    unitPrice := 1, totalAmount := 1, customerEmail := "e@example.com",
    status := .delivered, paymentMethod := "card", timestamp := 0 }

/-- Store of the top-selling example: sales sum to A:3, B:5, C:1. -/
def topStore : EcommerceDataStore :=
  { products := [("A", prodA), ("B", prodB), ("C", prodC)],
    sales := [mkSaleQ "s1" "A" 3, mkSaleQ "s2" "B" 5, mkSaleQ "s3" "C" 1],
    categories := ["Misc"], collections := [] }

/-- A sale referencing a product id that is not in the store, with amount 0. -/
def orphanSale : Sale :=
  { id := "s-orphan", productId := "ghost", productName := "Ghost",
    quantity := 1, unitPrice := 0, totalAmount := 0,
    customerEmail := "e@example.com", status := .delivered,
    paymentMethod := "card", timestamp := 0 }

/-- A store whose only sale is the zero-amount orphaned `orphanSale`. -/
def orphanStore : EcommerceDataStore :=
  { products := [], sales := [orphanSale], categories := [], collections := [] }

/-- A positive-amount orphaned sale. -/
def posOrphanSale : Sale :=
  { id := "s-orphan-pos", productId := "ghost", productName := "Ghost",
    quantity := 1, unitPrice := 5, totalAmount := 5,
    customerEmail := "e@example.com", status := .delivered,
    paymentMethod := "card", timestamp := 0 }

/-- A store whose only sale is the positive-amount orphaned `posOrphanSale`. -/
def posOrphanStore : EcommerceDataStore :=
  { products := [], sales := [posOrphanSale], categories := [],
    collections := [] }

/-- Creation input for the C4 counterexample: the name "Shirt" equals no stored
product's name and the SKU matches no stored product's SKU. -/
def cexProductData : ProductData :=
  { name := "Shirt", description := "Plain shirt", price := 10,
    category := "Clothing", stock := 5, isVisible := true, tags := [],
    sku := some "XYZ-1" }

/-! ## Association-list lemmas -/

theorem amapGet_nil {α : Type} (k : String) :
    amapGet ([] : List (String × α)) k = none := rfl

theorem amapGet_cons {α : Type} (k' : String) (v' : α) (l : List (String × α))
    (k : String) :
    amapGet ((k', v') :: l) k = if k' = k then some v' else amapGet l k := by
  by_cases h : k' = k
  · simp [amapGet, List.find?_cons_of_pos, h]
  · simp only [amapGet]
    rw [List.find?_cons_of_neg _ (by simpa using h), if_neg h]

theorem amapGet_eq_some_mem {α : Type} {l : List (String × α)} {k : String}
    {v : α} (h : amapGet l k = some v) : (k, v) ∈ l := by
  induction l with
  | nil => simp [amapGet_nil] at h
  | cons hd tl ih =>
      obtain ⟨k', v'⟩ := hd
      rw [amapGet_cons] at h
      by_cases hk : k' = k
      · subst hk
        rw [if_pos rfl] at h
        cases h
        exact List.mem_cons_self _ _
      · rw [if_neg hk] at h
        exact List.mem_cons_of_mem _ (ih h)

theorem amapSet_cons {α : Type} (k' : String) (v' : α) (l : List (String × α))
    (k : String) (v : α) :
    amapSet ((k', v') :: l) k v =
      if k' = k then (k, v) :: l else (k', v') :: amapSet l k v := by
  by_cases h : k' = k <;> simp [amapSet, h]

theorem mem_amapSet {α : Type} {l : List (String × α)} {k : String} {v : α}
    {kv : String × α} (h : kv ∈ amapSet l k v) : kv = (k, v) ∨ kv ∈ l := by
  induction l with
  | nil => simpa [amapSet] using h
  | cons hd tl ih =>
      obtain ⟨k', v'⟩ := hd
      rw [amapSet_cons] at h
      by_cases hk : k' = k
      · rw [if_pos hk] at h
        rcases List.mem_cons.mp h with h | h
        · exact .inl h
        · exact .inr (List.mem_cons_of_mem _ h)
      · rw [if_neg hk] at h
        rcases List.mem_cons.mp h with h | h
        · exact .inr (h ▸ List.mem_cons_self _ _)
        · rcases ih h with h | h
          · exact .inl h
          · exact .inr (List.mem_cons_of_mem _ h)

theorem amapGet_amapSet_self {α : Type} (l : List (String × α)) (k : String)
    (v : α) : amapGet (amapSet l k v) k = some v := by
  induction l with
  | nil => simp [amapSet, amapGet_cons]
  | cons hd tl ih =>
      obtain ⟨k', v'⟩ := hd
      rw [amapSet_cons]
      by_cases hk : k' = k
      · rw [if_pos hk, amapGet_cons, if_pos rfl]
      · rw [if_neg hk, amapGet_cons, if_neg hk]
        exact ih

theorem amapGet_amapSet_ne {α : Type} (l : List (String × α)) {k k' : String}
    (v : α) (h : k ≠ k') : amapGet (amapSet l k v) k' = amapGet l k' := by
  induction l with
  | nil => simp [amapSet, amapGet_cons, amapGet_nil, h]
  | cons hd tl ih =>
      obtain ⟨k₀, v₀⟩ := hd
      rw [amapSet_cons]
      by_cases hk : k₀ = k
      · rw [if_pos hk, amapGet_cons, amapGet_cons, if_neg h, hk, if_neg h]
      · rw [if_neg hk, amapGet_cons, amapGet_cons]
        by_cases hk' : k₀ = k'
        · rw [if_pos hk', if_pos hk']
        · rw [if_neg hk', if_neg hk', ih]

theorem amapSet_append_of_not_mem {α : Type} {l : List (String × α)}
    {k : String} (v : α) (h : ∀ kv ∈ l, kv.1 ≠ k) :
    amapSet l k v = l ++ [(k, v)] := by
  induction l with
  | nil => rfl
  | cons hd tl ih =>
      obtain ⟨k', v'⟩ := hd
      rw [amapSet_cons, if_neg (h (k', v') (List.mem_cons_self _ _)),
        List.cons_append]
      rw [ih fun kv hkv => h kv (List.mem_cons_of_mem _ hkv)]

theorem keys_amapSet {α : Type} (l : List (String × α)) (k : String) (v : α) :
    (amapSet l k v).map Prod.fst =
      if k ∈ l.map Prod.fst then l.map Prod.fst
      else l.map Prod.fst ++ [k] := by
  induction l with
  | nil => simp [amapSet]
  | cons hd tl ih =>
      obtain ⟨k', v'⟩ := hd
      rw [amapSet_cons]
      by_cases hk : k' = k
      · subst hk
        simp
      · rw [if_neg hk]
        simp only [List.map_cons, ih]
        have hne : ¬k = k' := fun h => hk h.symm
        by_cases hmem : k ∈ tl.map Prod.fst
        · rw [if_pos hmem, if_pos (List.mem_cons.mpr (Or.inr hmem))]
        · rw [if_neg hmem, if_neg (by simp [hne, hmem]), List.cons_append]

theorem nodup_keys_amapSet {α : Type} {l : List (String × α)} (k : String)
    (v : α) (h : (l.map Prod.fst).Nodup) :
    ((amapSet l k v).map Prod.fst).Nodup := by
  rw [keys_amapSet]
  by_cases hmem : k ∈ l.map Prod.fst
  · rwa [if_pos hmem]
  · rw [if_neg hmem]
    refine List.Nodup.append h (List.nodup_singleton k) ?_
    intro a ha hb
    rcases List.mem_singleton.mp hb with rfl
    exact hmem ha

theorem amapGet_of_mem_nodup {α : Type} {l : List (String × α)}
    {kv : String × α} (hn : (l.map Prod.fst).Nodup) (h : kv ∈ l) :
    amapGet l kv.1 = some kv.2 := by
  induction l with
  | nil => simp at h
  | cons hd tl ih =>
      obtain ⟨k', v'⟩ := hd
      rcases List.mem_cons.mp h with rfl | h
      · rw [amapGet_cons, if_pos rfl]
      · rw [amapGet_cons]
        have hk : k' ≠ kv.1 := by
          intro hk
          have : kv.1 ∈ tl.map Prod.fst := List.mem_map_of_mem _ h
          exact (List.nodup_cons.mp hn).1 (hk ▸ this)
        rw [if_neg hk]
        exact ih (List.nodup_cons.mp hn).2 h

/-! ## `updateStock` lemmas -/

open EcommerceDataStore in
theorem updateStock_not_found (s : EcommerceDataStore) (pid : String)
    (op : StockOperation) (now : ℤ) (h : s.getProduct pid = none) :
    s.updateStock pid op now = (s, false) := by
  unfold EcommerceDataStore.updateStock
  rw [show amapGet s.products pid = none from h]

open EcommerceDataStore in
theorem updateStock_found (s : EcommerceDataStore) (pid : String) (p : Product)
    (op : StockOperation) (now : ℤ) (h : s.getProduct pid = some p) :
    s.updateStock pid op now =
      ({ s with
          products := amapSet s.products pid
            { p with stock := applyStockOp p.stock op, updatedAt := now } },
        true) := by
  unfold EcommerceDataStore.updateStock
  rw [show amapGet s.products pid = some p from h]

open EcommerceDataStore in
theorem updateStock_sales (s : EcommerceDataStore) (pid : String)
    (op : StockOperation) (now : ℤ) :
    (s.updateStock pid op now).1.sales = s.sales := by
  cases h : s.getProduct pid with
  | none => rw [updateStock_not_found s pid op now h]
  | some p => rw [updateStock_found s pid p op now h]

open EcommerceDataStore in
theorem stockOf_updateStock (s : EcommerceDataStore) (pid : String)
    (p : Product) (op : StockOperation) (now : ℤ)
    (h : s.getProduct pid = some p) :
    stockOf (s.updateStock pid op now).1 pid = some (applyStockOp p.stock op) := by
  rw [updateStock_found s pid p op now h]
  simp only [stockOf, getProduct]
  rw [amapGet_amapSet_self]
  rfl

/-! ## Concrete stores used as evaluation witnesses -/

/-- C3: for an existing product, `updateStock` with `subtract` sets stock to
`max(0, stock − q)` and with `set` sets it to `max(0, q)`, never below zero,
returning `true` in both cases. -/
theorem updateStock_subtract_set_clamp (s : EcommerceDataStore) (pid : String)
    (p : Product) (q : ℤ) (reason : Option String) (now : ℤ)
    (h : s.getProduct pid = some p) :
    (s.updateStock pid ⟨.subtract, q, reason⟩ now).2 = true ∧
    stockOf (s.updateStock pid ⟨.subtract, q, reason⟩ now).1 pid
      = some (max 0 (p.stock - q)) ∧
    (s.updateStock pid ⟨.set, q, reason⟩ now).2 = true ∧
    stockOf (s.updateStock pid ⟨.set, q, reason⟩ now).1 pid
      = some (max 0 q) ∧
    0 ≤ max 0 (p.stock - q) ∧ 0 ≤ max 0 q := by
  refine ⟨?_, ?_, ?_, ?_, le_max_left _ _, le_max_left _ _⟩
  · rw [updateStock_found s pid p _ now h]
  · exact stockOf_updateStock s pid p _ now h
  · rw [updateStock_found s pid p _ now h]
  · exact stockOf_updateStock s pid p _ now h

/-- Witness for C3: stock 5, subtract 9 gives 0 (not −4); set −3 gives 0. -/
theorem updateStock_subtract_set_clamp_witness :
    demoStore.getProduct "p1" = some demoProduct ∧
    stockOf (demoStore.updateStock "p1" ⟨.subtract, 9, none⟩ 0).1 "p1"
      = some 0 ∧
    stockOf (demoStore.updateStock "p1" ⟨.set, -3, none⟩ 0).1 "p1" = some 0 := by
  have h : demoStore.getProduct "p1" = some demoProduct := by decide
  have h9 := updateStock_subtract_set_clamp demoStore "p1" demoProduct 9 none 0 h
  have hm3 := updateStock_subtract_set_clamp demoStore "p1" demoProduct (-3) none 0 h
  exact ⟨h, h9.2.1.trans (by decide), hm3.2.2.2.1.trans (by decide)⟩

/-- C2: `addSale` appends exactly the one new sale (carrying the supplied data
and generated id) to the log, and then subtracts the sale quantity from the
referenced product's stock with floor at zero; when the product id is unknown
the product map is left untouched while the sale is still appended. -/
theorem addSale_appends_and_decrements (s : EcommerceDataStore)
    (saleData : SaleData) (freshId : String) (now : ℤ) :
    (s.addSale saleData freshId now).1.sales
      = s.sales ++ [(s.addSale saleData freshId now).2] ∧
    (s.addSale saleData freshId now).2.id = freshId ∧
    (s.addSale saleData freshId now).2.productId = saleData.productId ∧
    (s.addSale saleData freshId now).2.quantity = saleData.quantity ∧
    (∀ p, s.getProduct saleData.productId = some p →
      stockOf (s.addSale saleData freshId now).1 saleData.productId
        = some (max 0 (p.stock - saleData.quantity))) ∧
    (s.getProduct saleData.productId = none →
      (s.addSale saleData freshId now).1.products = s.products) := by
  refine ⟨?_, rfl, rfl, rfl, ?_, ?_⟩
  · exact updateStock_sales _ _ _ _
  · intro p hp
    exact stockOf_updateStock _ _ p _ now hp
  · intro hp
    rw [show (s.addSale saleData freshId now).1
        = (EcommerceDataStore.updateStock
            { s with sales := s.sales ++ [(s.addSale saleData freshId now).2] }
            saleData.productId
            { operation := .subtract, quantity := saleData.quantity,
              reason := some ("Sale: " ++ freshId) } now).1 from rfl]
    have hp' : EcommerceDataStore.getProduct
        { s with sales := s.sales ++ [(s.addSale saleData freshId now).2] }
        saleData.productId = none := hp
    rw [updateStock_not_found _ _ _ _ hp']

/-- Witness for C2: product stock 3, sale quantity 5 — the sale is appended and
the stock is clamped to 0, not an error and not negative. -/
theorem addSale_appends_and_decrements_witness :
    lowStore.getProduct "p2" = some lowProduct ∧
    (lowStore.addSale lowSaleData "sale-1" 0).1.sales
      = lowStore.sales ++ [(lowStore.addSale lowSaleData "sale-1" 0).2] ∧
    stockOf (lowStore.addSale lowSaleData "sale-1" 0).1 "p2" = some 0 := by
  have h : lowStore.getProduct "p2" = some lowProduct := by decide
  have hc := addSale_appends_and_decrements lowStore lowSaleData "sale-1" 0
  exact ⟨h, hc.1, (hc.2.2.2.2.1 lowProduct h).trans (by decide)⟩

/-! ## The stock invariant over operation sequences (C1) -/

theorem applyStockOp_nonneg {stock : ℤ} (op : StockOperation)
    (hs : 0 ≤ stock) (hq : op.operation = .add → 0 ≤ op.quantity) :
    0 ≤ EcommerceDataStore.applyStockOp stock op := by
  unfold EcommerceDataStore.applyStockOp
  cases h : op.operation
  · exact add_nonneg hs (hq h)
  · exact le_max_left _ _
  · exact le_max_left _ _

open EcommerceDataStore in
theorem stocksNonneg_updateStock (s : EcommerceDataStore) (pid : String)
    (op : StockOperation) (now : ℤ) (hs : StocksNonneg s)
    (hq : op.operation = .add → 0 ≤ op.quantity) :
    StocksNonneg (s.updateStock pid op now).1 := by
  cases h : s.getProduct pid with
  | none => rw [updateStock_not_found s pid op now h]; exact hs
  | some p =>
      rw [updateStock_found s pid p op now h]
      intro kp hkp
      rcases mem_amapSet hkp with rfl | hkp
      · exact applyStockOp_nonneg op (hs _ (amapGet_eq_some_mem h)) hq
      · exact hs _ hkp

open EcommerceDataStore in
theorem mem_foldl_amapSet {ps : List Product} {m : List (String × Product)}
    {kp : String × Product}
    (h : kp ∈ ps.foldl (fun m p => amapSet m p.id p) m) :
    kp ∈ m ∨ (kp.2 ∈ ps ∧ kp.1 = kp.2.id) := by
  induction ps generalizing m with
  | nil => exact .inl h
  | cons p rest ih =>
      rw [List.foldl_cons] at h
      rcases ih h with h | h
      · rcases mem_amapSet h with h | h
        · right
          rw [h]
          exact ⟨List.mem_cons_self _ _, rfl⟩
        · exact .inl h
      · exact .inr ⟨List.mem_cons_of_mem _ h.1, h.2⟩

open EcommerceDataStore in
theorem importData_products (s : EcommerceDataStore)
    (data : EcommerceDataStore.ExportedData) :
    (s.importData data).products
      = data.products.foldl (fun m p => amapSet m p.id p) [] := by
  suffices h : ∀ (ps : List Product) (acc : EcommerceDataStore),
      (ps.foldl (fun acc product =>
          registerSets
            { acc with products := amapSet acc.products product.id product }
            product.category product.collection) acc).products
        = ps.foldl (fun m p => amapSet m p.id p) acc.products by
    exact h data.products _
  intro ps
  induction ps with
  | nil => intro acc; rfl
  | cons p rest ih =>
      intro acc
      rw [List.foldl_cons, List.foldl_cons, ih]
      rfl

theorem importData_sales (s : EcommerceDataStore)
    (data : EcommerceDataStore.ExportedData) :
    (s.importData data).sales = data.sales := rfl

theorem applyOp_stocksNonneg (s : EcommerceDataStore) (op : RepoOp)
    (hs : StocksNonneg s) (hop : OpStockSafe op) :
    StocksNonneg (applyOp s op) := by
  cases op with
  | addProduct productData freshId now =>
      intro kp hkp
      rcases mem_amapSet hkp with h | h
      · rw [h]; exact hop
      · exact hs _ h
  | updateProduct id updates now =>
      show StocksNonneg (s.updateProduct id updates now).1
      unfold EcommerceDataStore.updateProduct
      cases h : amapGet s.products id with
      | none => exact hs
      | some p =>
          intro kp hkp
          rcases mem_amapSet hkp with hkp | hkp
          · rw [hkp]
            show 0 ≤ updates.stock.getD p.stock
            cases hv : updates.stock with
            | some v => exact hop v hv
            | none => exact hs _ (amapGet_eq_some_mem h)
          · exact hs _ hkp
  | updateStock pid sop now => exact stocksNonneg_updateStock s pid sop now hs hop
  | addSale saleData freshId now =>
      exact stocksNonneg_updateStock _ _ _ _ (fun kp hkp => hs kp hkp)
        (fun h => by cases h)
  | importData data =>
      intro kp hkp
      rw [show (applyOp s (.importData data)).products
          = (s.importData data).products from rfl, importData_products] at hkp
      rcases mem_foldl_amapSet hkp with h | h
      · simp at h
      · exact hop _ h.1

/-- Counterexample to C1 as stated: an `updateStock` with operation `add` and a
negative quantity drives an existing product's stock below zero (the `add`
branch has no floor), so the invariant does not survive *arbitrary* quantities. -/
theorem stock_invariant_counterexample :
    StocksNonneg demoStore ∧
    ¬ StocksNonneg (applyOps demoStore
        [RepoOp.updateStock "p1" ⟨.add, -9, none⟩ 0]) := by
  constructor
  · decide
  · decide

/-- C1 (amended): over every sequence of repository operations whose supplied
stock values and `add` quantities are non-negative, every stored product's
stock stays non-negative (`subtract`/`set` clamp, `addSale` only subtracts). -/
theorem stock_invariant (s : EcommerceDataStore) (ops : List RepoOp)
    (hs : StocksNonneg s) (hops : ∀ op ∈ ops, OpStockSafe op) :
    StocksNonneg (applyOps s ops) := by
  induction ops generalizing s with
  | nil => exact hs
  | cons op rest ih =>
      rw [show applyOps s (op :: rest) = applyOps (applyOp s op) rest from rfl]
      exact ih _
        (applyOp_stocksNonneg s op hs (hops op (List.mem_cons_self _ _)))
        (fun o ho => hops o (List.mem_cons_of_mem _ ho))

/-! ## Export/import round trip (C8) -/

theorem foldl_amapSet_keyed {l m : List (String × Product)}
    (hids : ∀ kp ∈ l, kp.2.id = kp.1) (hnd : (l.map Prod.fst).Nodup)
    (hdisj : ∀ kp ∈ l, ∀ kv ∈ m, kv.1 ≠ kp.1) :
    (l.map Prod.snd).foldl (fun m p => amapSet m p.id p) m = m ++ l := by
  induction l generalizing m with
  | nil => simp
  | cons hd tl ih =>
      obtain ⟨k, p⟩ := hd
      have hid : p.id = k := hids (k, p) (List.mem_cons_self _ _)
      rw [List.map_cons, List.foldl_cons]
      have hstep : amapSet m p.id p = m ++ [(k, p)] := by
        rw [hid]
        exact amapSet_append_of_not_mem p
          (fun kv hkv => hdisj (k, p) (List.mem_cons_self _ _) kv hkv)
      rw [hstep,
        ih (fun kp hkp => hids kp (List.mem_cons_of_mem _ hkp))
          (List.nodup_cons.mp (by simpa using hnd)).2 ?_,
        List.append_assoc]
      · rfl
      · intro kp hkp kv hkv
        rcases List.mem_append.mp hkv with hkv | hkv
        · exact hdisj kp (List.mem_cons_of_mem _ hkp) kv hkv
        · rcases List.mem_singleton.mp hkv with rfl
          intro hkk
          have : kp.1 ∈ tl.map Prod.fst := List.mem_map_of_mem _ hkp
          exact (List.nodup_cons.mp (by simpa using hnd)).1 (hkk ▸ this)

/-- C8: `importData(exportData())` restores the very same product map (same
ids, same records, same order) and the very same sale log. -/
theorem export_import_roundtrip (s : EcommerceDataStore) (hwf : StoreWF s) :
    (s.importData s.exportData).products = s.products ∧
    (s.importData s.exportData).sales = s.sales := by
  refine ⟨?_, importData_sales s _⟩
  rw [importData_products]
  rw [show s.exportData.products = s.products.map Prod.snd from rfl]
  rw [foldl_amapSet_keyed hwf.2 hwf.1 (by intro kp _ kv hkv; simp at hkv)]
  rfl

/-- Witness for C8 at a concrete store. -/
theorem export_import_roundtrip_witness :
    StoreWF demoStore ∧
    (demoStore.importData demoStore.exportData).products
      = demoStore.products ∧
    (demoStore.importData demoStore.exportData).sales = demoStore.sales := by
  refine ⟨by decide, ?_, ?_⟩
  · exact (export_import_roundtrip demoStore (by decide)).1
  · exact (export_import_roundtrip demoStore (by decide)).2

/-! ## First-match name lookup (C5) -/

/-- C5: `getProductByName` returns empty iff no stored product's name contains
the fragment case-insensitively, and returns `p` iff `p` is a stored product
whose name matches and every product *before* it in insertion order does not
match (first-match-wins). -/
theorem getProductByName_first (s : EcommerceDataStore) (frag : String) :
    (s.getProductByName frag = none ↔
      ∀ p ∈ s.products.map Prod.snd,
        strIncludes (strLower p.name) (strLower frag) = false) ∧
    ∀ p, s.getProductByName frag = some p ↔
      (strIncludes (strLower p.name) (strLower frag) = true ∧
       ∃ l₁ l₂, s.products.map Prod.snd = l₁ ++ p :: l₂ ∧
         ∀ q ∈ l₁, strIncludes (strLower q.name) (strLower frag) = false) := by
  constructor
  · unfold EcommerceDataStore.getProductByName
    rw [List.find?_eq_none]
    constructor
    · intro h p hp
      simpa using h p hp
    · intro h p hp
      simp [h p hp]
  · intro p
    unfold EcommerceDataStore.getProductByName
    rw [List.find?_eq_some]
    constructor
    · rintro ⟨hmatch, l₁, l₂, heq, hbefore⟩
      refine ⟨hmatch, l₁, l₂, heq, fun q hq => ?_⟩
      simpa using hbefore q hq
    · rintro ⟨hmatch, l₁, l₂, heq, hbefore⟩
      refine ⟨hmatch, l₁, l₂, heq, fun q hq => ?_⟩
      simp [hbefore q hq]

/-- Witness for C5: `getProductByName("shirt")` over the two-shirt store
deterministically returns "Blue T-Shirt". -/
theorem getProductByName_first_witness :
    shirtStore.getProductByName "shirt" = some blueShirt := by
  refine ((getProductByName_first shirtStore "shirt").2 blueShirt).mpr
    ⟨by decide, [], [redShirt], rfl, ?_⟩
  intro q hq
  simp at hq

/-! ## Inclusive date-range filter (C6) -/

/-- C6: a sale is in `getSalesByDateRange(start, end)` iff it is in the sale
log and `start ≤ timestamp ≤ end` (both bounds inclusive), and the result is a
sublist of the log (insertion order preserved). -/
theorem getSalesByDateRange_inclusive (s : EcommerceDataStore)
    (start stop : ℤ) :
    (∀ sale, sale ∈ s.getSalesByDateRange start stop ↔
        sale ∈ s.sales ∧ start ≤ sale.timestamp ∧ sale.timestamp ≤ stop) ∧
    List.Sublist (s.getSalesByDateRange start stop) s.sales := by
  constructor
  · intro sale
    unfold EcommerceDataStore.getSalesByDateRange
    rw [List.mem_filter]
    simp
  · exact List.filter_sublist _

/-! ## Zeroed metrics on an empty sale selection (C7) -/

/-- C7: when the selected sale set is empty, `getSalesAnalytics` returns
`totalSales = 0`, `totalOrders = 0` and `avgOrderValue = 0` (the guarded
division never divides by zero; the function is total). -/
theorem getSalesAnalytics_empty (s : EcommerceDataStore)
    (dateRange : Option DateRange) (clock : EcommerceDataStore.Clock)
    (h : s.selectSales dateRange = []) :
    (s.getSalesAnalytics dateRange clock).totalSales = 0 ∧
    (s.getSalesAnalytics dateRange clock).totalOrders = 0 ∧
    (s.getSalesAnalytics dateRange clock).avgOrderValue = 0 := by
  unfold EcommerceDataStore.getSalesAnalytics
  rw [h]
  simp

/-- Witness for C7 on a store with no sales at all. -/
theorem getSalesAnalytics_empty_witness :
    emptyStore.selectSales none = [] ∧
    (emptyStore.getSalesAnalytics none ⟨0, 0, 0, 0⟩).totalSales = 0 ∧
    (emptyStore.getSalesAnalytics none ⟨0, 0, 0, 0⟩).totalOrders = 0 ∧
    (emptyStore.getSalesAnalytics none ⟨0, 0, 0, 0⟩).avgOrderValue = 0 :=
  ⟨rfl, getSalesAnalytics_empty emptyStore none ⟨0, 0, 0, 0⟩ rfl⟩

/-! ## Stable-sort lemmas -/

theorem insertDesc_perm {α β : Type} [LinearOrder β] (key : α → β) (x : α)
    (l : List α) : List.Perm (insertDesc key x l) (x :: l) := by
  induction l with
  | nil => exact List.Perm.refl _
  | cons y ys ih =>
      unfold insertDesc
      by_cases h : key x < key y
      · rw [if_pos h]
        exact (ih.cons y).trans (List.Perm.swap x y ys)
      · rw [if_neg h]

theorem sortDescBy_perm {α β : Type} [LinearOrder β] (key : α → β)
    (l : List α) : List.Perm (sortDescBy key l) l := by
  induction l with
  | nil => exact List.Perm.refl _
  | cons x xs ih =>
      unfold sortDescBy
      exact (insertDesc_perm key x _).trans (ih.cons x)

theorem pairwise_insertDesc {α β : Type} [LinearOrder β] (key : α → β) (x : α)
    {l : List α} (h : List.Pairwise (fun a b => key b ≤ key a) l) :
    List.Pairwise (fun a b => key b ≤ key a) (insertDesc key x l) := by
  induction l with
  | nil => simp [insertDesc]
  | cons y ys ih =>
      unfold insertDesc
      rcases List.pairwise_cons.mp h with ⟨hy, hys⟩
      by_cases hxy : key x < key y
      · rw [if_pos hxy]
        refine List.pairwise_cons.mpr ⟨fun b hb => ?_, ih hys⟩
        rcases List.mem_cons.mp ((insertDesc_perm key x ys).mem_iff.mp hb) with
          rfl | hb
        · exact le_of_lt hxy
        · exact hy b hb
      · rw [if_neg hxy]
        have hyx : key y ≤ key x := le_of_not_lt hxy
        refine List.pairwise_cons.mpr ⟨fun b hb => ?_, h⟩
        rcases List.mem_cons.mp hb with rfl | hb
        · exact hyx
        · exact (hy b hb).trans hyx

theorem pairwise_sortDescBy {α β : Type} [LinearOrder β] (key : α → β)
    (l : List α) :
    List.Pairwise (fun a b => key b ≤ key a) (sortDescBy key l) := by
  induction l with
  | nil => simp [sortDescBy]
  | cons x xs ih => exact pairwise_insertDesc key x ih

/-! ## Top-selling products (C9) -/

open EcommerceDataStore in
theorem groupQuantity_fold_get (sales : List Sale)
    (acc : List (String × ℤ)) (pid : String) :
    amapGet (sales.foldl (fun acc sale =>
        amapSet acc sale.productId
          ((amapGet acc sale.productId).getD 0 + sale.quantity)) acc) pid
      = if (amapGet acc pid).isSome
            ∨ sales.any (fun sale => sale.productId == pid)
        then some ((amapGet acc pid).getD 0 + totalQty sales pid)
        else none := by
  induction sales generalizing acc with
  | nil =>
      cases h : amapGet acc pid with
      | none => simp [h, totalQty]
      | some v => simp [h, totalQty]
  | cons sale rest ih =>
      rw [List.foldl_cons, ih]
      by_cases hpid : sale.productId = pid
      · subst hpid
        rw [amapGet_amapSet_self]
        have ht : totalQty (sale :: rest) sale.productId
            = sale.quantity + totalQty rest sale.productId := by
          simp [totalQty, List.filter_cons]
        cases h : amapGet acc sale.productId with
        | none => simp [h, ht, add_assoc]
        | some v => simp [h, ht, add_assoc]
      · have hne : sale.productId ≠ pid := hpid
        rw [amapGet_amapSet_ne _ _ hne]
        have ht : totalQty (sale :: rest) pid = totalQty rest pid := by
          simp [totalQty, List.filter_cons, hne]
        have hany : ((sale :: rest).any fun s => s.productId == pid)
            = (rest.any fun s => s.productId == pid) := by
          simp [List.any_cons, hne]
        rw [ht, hany]

open EcommerceDataStore in
theorem groupQuantity_get (sales : List Sale) (pid : String) :
    amapGet (groupQuantity sales) pid
      = if sales.any (fun sale => sale.productId == pid)
        then some (totalQty sales pid) else none := by
  have h := groupQuantity_fold_get sales [] pid
  rw [show groupQuantity sales = sales.foldl (fun acc sale =>
      amapSet acc sale.productId
        ((amapGet acc sale.productId).getD 0 + sale.quantity)) [] from rfl, h]
  simp [amapGet_nil]

open EcommerceDataStore in
theorem nodup_keys_groupQuantity (sales : List Sale) :
    ((groupQuantity sales).map Prod.fst).Nodup := by
  have h : ∀ (ss : List Sale) (acc : List (String × ℤ)),
      (acc.map Prod.fst).Nodup →
      ((ss.foldl (fun acc sale =>
          amapSet acc sale.productId
            ((amapGet acc sale.productId).getD 0 + sale.quantity)) acc).map
        Prod.fst).Nodup := by
    intro ss
    induction ss with
    | nil => exact fun acc h => h
    | cons sale rest ih =>
        intro acc hacc
        rw [List.foldl_cons]
        exact ih _ (nodup_keys_amapSet _ _ hacc)
  exact h sales [] (by simp)

open EcommerceDataStore in
theorem mem_groupQuantity {sales : List Sale} {kv : String × ℤ}
    (h : kv ∈ groupQuantity sales) :
    kv.2 = totalQty sales kv.1 ∧ ∃ sale ∈ sales, sale.productId = kv.1 := by
  have hget := amapGet_of_mem_nodup (nodup_keys_groupQuantity sales) h
  rw [groupQuantity_get] at hget
  by_cases hany : sales.any (fun sale => sale.productId == kv.1)
  · rw [if_pos hany] at hget
    refine ⟨by injection hget with h'; exact h'.symm, ?_⟩
    obtain ⟨sale, hsale, hbeq⟩ := List.any_eq_true.mp hany
    exact ⟨sale, hsale, by simpa using hbeq⟩
  · rw [if_neg hany] at hget
    cases hget

open EcommerceDataStore in
theorem getProduct_id {s : EcommerceDataStore} (hwf : StoreWF s) {pid : String}
    {p : Product} (h : s.getProduct pid = some p) : p.id = pid :=
  hwf.2 (pid, p) (amapGet_eq_some_mem h)

open EcommerceDataStore in
/-- C9: `getTopSellingProducts` returns at most `limit` products; each returned
product is the current record stored under its id; each comes from at least one
sale of the selected set; and the output is ordered by total sold quantity,
descending (grouping sums quantities, not revenue). -/
theorem getTopSellingProducts_spec (s : EcommerceDataStore) (hwf : StoreWF s)
    (limit : ℕ) (period : Option DateRange) :
    (s.getTopSellingProducts limit period).length ≤ limit ∧
    (∀ p ∈ s.getTopSellingProducts limit period, s.getProduct p.id = some p) ∧
    (∀ p ∈ s.getTopSellingProducts limit period,
        ∃ sale ∈ s.selectSales period, sale.productId = p.id) ∧
    List.Pairwise (fun p q => totalQty (s.selectSales period) q.id
        ≤ totalQty (s.selectSales period) p.id)
      (s.getTopSellingProducts limit period) := by
  have hre : s.getTopSellingProducts limit period
      = (((sortDescBy (fun e : String × ℤ => e.2)
            (groupQuantity (s.selectSales period))).take limit).filterMap
          (fun e => s.getProduct e.1)) := rfl
  refine ⟨?_, ?_, ?_, ?_⟩
  · rw [hre]
    exact le_trans (List.length_filterMap_le _ _) (List.length_take_le _ _)
  · intro p hp
    rw [hre] at hp
    obtain ⟨e, _, he⟩ := List.mem_filterMap.mp hp
    rw [getProduct_id hwf he]
    exact he
  · intro p hp
    rw [hre] at hp
    obtain ⟨e, hmem, he⟩ := List.mem_filterMap.mp hp
    have hent : e ∈ groupQuantity (s.selectSales period) :=
      (sortDescBy_perm _ _).mem_iff.mp (List.mem_of_mem_take hmem)
    obtain ⟨_, sale, hsale, hpid⟩ := mem_groupQuantity hent
    exact ⟨sale, hsale, by rw [hpid, getProduct_id hwf he]⟩
  · rw [hre]
    set sel := s.selectSales period with hsel
    have h₁ : List.Pairwise (fun a b => totalQty sel b.1 ≤ totalQty sel a.1)
        (sortDescBy (fun e => e.2) (groupQuantity sel)) := by
      refine List.Pairwise.imp_of_mem ?_
        (pairwise_sortDescBy (fun e : String × ℤ => e.2) (groupQuantity sel))
      intro a b ha hb hab
      have ha' := (mem_groupQuantity ((sortDescBy_perm _ _).mem_iff.mp ha)).1
      have hb' := (mem_groupQuantity ((sortDescBy_perm _ _).mem_iff.mp hb)).1
      rw [← ha', ← hb']
      exact hab
    have h₂ := h₁.sublist (List.take_sublist limit _)
    refine List.pairwise_filterMap.mpr ?_
    refine h₂.imp ?_
    intro a b hab p hp q hq
    rw [getProduct_id hwf (Option.mem_def.mp hp),
      getProduct_id hwf (Option.mem_def.mp hq)]
    exact hab

/-- Witness for C9: `getTopSellingProducts(limit=2)` over quantities
{A:3, B:5, C:1} returns `[B, A]`. -/
theorem getTopSellingProducts_spec_witness :
    StoreWF topStore ∧
    topStore.getTopSellingProducts 2 none = [prodB, prodA] ∧
    List.Pairwise (fun p q => totalQty (topStore.selectSales none) q.id
        ≤ totalQty (topStore.selectSales none) p.id)
      (topStore.getTopSellingProducts 2 none) :=
  ⟨by decide, by decide,
    (getTopSellingProducts_spec topStore (by decide) 2 none).2.2.2⟩

/-! ## Category performance vs. totals (C10) -/

theorem sum_map_amapSet {α : Type} (g : α → ℚ) (l : List (String × α))
    (k : String) (v : α) :
    ((amapSet l k v).map (fun kv => g kv.2)).sum
      = (l.map (fun kv => g kv.2)).sum + g v
        - (match amapGet l k with | some w => g w | none => 0) := by
  induction l with
  | nil => simp [amapSet, amapGet_nil]
  | cons hd tl ih =>
      obtain ⟨k', v'⟩ := hd
      rw [amapSet_cons, amapGet_cons]
      by_cases h : k' = k
      · rw [if_pos h, if_pos h]
        simp only [List.map_cons, List.sum_cons]
        ring
      · rw [if_neg h, if_neg h]
        simp only [List.map_cons, List.sum_cons, ih]
        ring

open EcommerceDataStore in
theorem sum_categoryStep (s : EcommerceDataStore)
    (acc : List (String × ℚ × ℕ)) (sale : Sale) :
    ((categoryStep s acc sale).map (fun kv => kv.2.1)).sum
      = (acc.map (fun kv => kv.2.1)).sum
        + (if (s.getProduct sale.productId).isSome then sale.totalAmount
           else 0) := by
  unfold categoryStep
  cases hp : getProduct s sale.productId with
  | none => simp
  | some product =>
      dsimp only
      have hc : ((some product : Option Product).isSome = true) := rfl
      rw [if_pos hc]
      cases hg : amapGet acc product.category with
      | none =>
          rw [sum_map_amapSet (fun st : ℚ × ℕ => st.1) acc product.category,
            hg]
          ring
      | some stats =>
          rw [sum_map_amapSet (fun st : ℚ × ℕ => st.1) acc product.category,
            hg]
          ring

open EcommerceDataStore in
theorem sum_groupCategory (s : EcommerceDataStore) (sel : List Sale) :
    ((groupCategory s sel).map (fun kv => kv.2.1)).sum
      = ((sel.filter
          (fun sale => (s.getProduct sale.productId).isSome)).map
            Sale.totalAmount).sum := by
  have h : ∀ (ss : List Sale) (acc : List (String × ℚ × ℕ)),
      ((ss.foldl (categoryStep s) acc).map (fun kv => kv.2.1)).sum
        = (acc.map (fun kv => kv.2.1)).sum
          + ((ss.filter
              (fun sale => (s.getProduct sale.productId).isSome)).map
                Sale.totalAmount).sum := by
    intro ss
    induction ss with
    | nil => simp
    | cons sale rest ih =>
        intro acc
        rw [List.foldl_cons, ih, sum_categoryStep, List.filter_cons]
        by_cases hp : (s.getProduct sale.productId).isSome
        · rw [if_pos hp, if_pos hp]
          simp only [List.map_cons, List.sum_cons]
          ring
        · rw [if_neg hp, if_neg hp]
          simp
  have h0 := h sel []
  simpa [groupCategory] using h0

open EcommerceDataStore in
theorem isSome_revenueStep_self (acc : List (String × String × ℚ))
    (sale : Sale) :
    (amapGet (revenueStep acc sale) sale.productId).isSome := by
  unfold revenueStep
  cases hg : amapGet acc sale.productId <;>
    simp [amapGet_amapSet_self]

open EcommerceDataStore in
theorem isSome_revenueStep_mono (acc : List (String × String × ℚ))
    (sale : Sale) (k : String) (h : (amapGet acc k).isSome) :
    (amapGet (revenueStep acc sale) k).isSome := by
  by_cases hk : sale.productId = k
  · subst hk
    exact isSome_revenueStep_self acc sale
  · unfold revenueStep
    cases hg : amapGet acc sale.productId <;>
      rw [amapGet_amapSet_ne _ _ hk] <;> exact h

open EcommerceDataStore in
theorem isSome_foldl_revenueStep_mono (ss : List Sale)
    (acc : List (String × String × ℚ)) (k : String)
    (h : (amapGet acc k).isSome) :
    (amapGet (ss.foldl revenueStep acc) k).isSome := by
  induction ss generalizing acc with
  | nil => exact h
  | cons sale rest ih =>
      rw [List.foldl_cons]
      exact ih _ (isSome_revenueStep_mono acc sale k h)

open EcommerceDataStore in
theorem mem_sel_groupRevenue_isSome (sel : List Sale) :
    ∀ sale ∈ sel, (amapGet (groupRevenue sel) sale.productId).isSome := by
  have h : ∀ (ss : List Sale) (acc : List (String × String × ℚ)),
      ∀ sale ∈ ss,
        (amapGet (ss.foldl revenueStep acc) sale.productId).isSome := by
    intro ss
    induction ss with
    | nil => intro acc sale h; simp at h
    | cons sale rest ih =>
        intro acc sale' hsale'
        rw [List.foldl_cons]
        rcases List.mem_cons.mp hsale' with rfl | hsale'
        · exact isSome_foldl_revenueStep_mono rest _ _
            (isSome_revenueStep_self acc sale')
        · exact ih _ sale' hsale'
  exact h sel []

theorem sum_map_filter_split (p : Sale → Bool) (l : List Sale) :
    (l.map Sale.totalAmount).sum
      = ((l.filter p).map Sale.totalAmount).sum
        + ((l.filter (fun x => !p x)).map Sale.totalAmount).sum := by
  induction l with
  | nil => simp
  | cons x xs ih =>
      rw [List.map_cons, List.sum_cons, List.filter_cons, List.filter_cons, ih]
      by_cases h : p x
      · simp only [h, Bool.not_true, if_pos, if_neg]
        simp [List.sum_cons]
        ring
      · have h' : p x = false := by simpa using h
        simp only [h', Bool.not_false]
        simp [List.sum_cons]
        ring

open EcommerceDataStore in
/-- C10: in every `getSalesAnalytics` result, `totalSales`/`totalOrders` count
*all* selected sales (orphaned or not), every selected sale — orphaned or not —
gets an entry in the `topProducts` grouping, while `categoryPerformance` only
sums sales whose productId currently resolves; hence, when amounts are
non-negative, category revenue sums to at most `totalSales`, strictly less as
soon as an orphaned sale has positive amount (an orphaned sale of amount 0
yields equality, which is why the unconditional strictness of the original
claim fails). -/
theorem getSalesAnalytics_category (s : EcommerceDataStore)
    (dateRange : Option DateRange) (clock : EcommerceDataStore.Clock) :
    (s.getSalesAnalytics dateRange clock).totalSales
      = ((s.selectSales dateRange).map Sale.totalAmount).sum ∧
    (s.getSalesAnalytics dateRange clock).totalOrders
      = (s.selectSales dateRange).length ∧
    (∀ sale ∈ s.selectSales dateRange,
      (amapGet (groupRevenue (s.selectSales dateRange))
        sale.productId).isSome) ∧
    catRevSum (s.getSalesAnalytics dateRange clock)
      = (((s.selectSales dateRange).filter
          (fun sale => (s.getProduct sale.productId).isSome)).map
            Sale.totalAmount).sum ∧
    ((∀ sale ∈ s.selectSales dateRange, 0 ≤ sale.totalAmount) →
      catRevSum (s.getSalesAnalytics dateRange clock)
        ≤ (s.getSalesAnalytics dateRange clock).totalSales) ∧
    ((∀ sale ∈ s.selectSales dateRange, 0 ≤ sale.totalAmount) →
      ∀ sale ∈ s.selectSales dateRange,
        s.getProduct sale.productId = none → 0 < sale.totalAmount →
        catRevSum (s.getSalesAnalytics dateRange clock)
          < (s.getSalesAnalytics dateRange clock).totalSales) := by
  have htot : (s.getSalesAnalytics dateRange clock).totalSales
      = ((s.selectSales dateRange).map Sale.totalAmount).sum := rfl
  have hord : (s.getSalesAnalytics dateRange clock).totalOrders
      = (s.selectSales dateRange).length := rfl
  have hcat : catRevSum (s.getSalesAnalytics dateRange clock)
      = (((s.selectSales dateRange).filter
          (fun sale => (s.getProduct sale.productId).isSome)).map
            Sale.totalAmount).sum := by
    rw [show catRevSum (s.getSalesAnalytics dateRange clock)
        = (((sortDescBy (fun e : String × ℚ × ℕ => e.2.1)
              (groupCategory s (s.selectSales dateRange))).map
            (fun e => CategoryPerf.mk e.1 e.2.1 e.2.2)).map
              CategoryPerf.revenue).sum from rfl]
    rw [List.map_map]
    rw [show ((CategoryPerf.revenue ∘ fun e : String × ℚ × ℕ =>
        CategoryPerf.mk e.1 e.2.1 e.2.2))
        = fun e : String × ℚ × ℕ => e.2.1 from rfl]
    rw [((sortDescBy_perm (fun e : String × ℚ × ℕ => e.2.1)
        (groupCategory s (s.selectSales dateRange))).map
          (fun e : String × ℚ × ℕ => e.2.1)).sum_eq]
    exact sum_groupCategory s _
  have hsplit := sum_map_filter_split
    (fun sale => (s.getProduct sale.productId).isSome) (s.selectSales dateRange)
  refine ⟨htot, hord, mem_sel_groupRevenue_isSome _, hcat, ?_, ?_⟩
  · intro hpos
    rw [htot, hcat, hsplit]
    have h0 : 0 ≤ (((s.selectSales dateRange).filter
        (fun x => !(s.getProduct x.productId).isSome)).map
          Sale.totalAmount).sum := by
      refine List.sum_nonneg ?_
      intro x hx
      obtain ⟨sale, hsale, rfl⟩ := List.mem_map.mp hx
      exact hpos sale (List.mem_of_mem_filter hsale)
    linarith
  · intro hpos sale hsale hnone hamt
    rw [htot, hcat, hsplit]
    have hmem : sale.totalAmount ∈ (((s.selectSales dateRange).filter
        (fun x => !(s.getProduct x.productId).isSome)).map
          Sale.totalAmount) := by
      refine List.mem_map_of_mem _ (List.mem_filter.mpr ⟨hsale, ?_⟩)
      simp [hnone]
    have hle : sale.totalAmount ≤ (((s.selectSales dateRange).filter
        (fun x => !(s.getProduct x.productId).isSome)).map
          Sale.totalAmount).sum := by
      refine List.single_le_sum ?_ _ hmem
      intro x hx
      obtain ⟨sale', hsale', rfl⟩ := List.mem_map.mp hx
      exact hpos sale' (List.mem_of_mem_filter hsale')
    linarith

/-- Counterexample to C10 as stated: with an orphaned sale of amount 0 in the
selected set, category revenue *equals* `totalSales` — the claimed strict
inequality fails. -/
theorem getSalesAnalytics_category_counterexample :
    orphanStore.getProduct "ghost" = none ∧
    orphanSale ∈ orphanStore.selectSales none ∧
    orphanSale.productId = "ghost" ∧
    catRevSum (orphanStore.getSalesAnalytics none ⟨0, 0, 0, 0⟩)
      = (orphanStore.getSalesAnalytics none ⟨0, 0, 0, 0⟩).totalSales := by
  refine ⟨rfl, by simp [EcommerceDataStore.selectSales, orphanStore], rfl, ?_⟩
  have hcat : catRevSum (orphanStore.getSalesAnalytics none ⟨0, 0, 0, 0⟩)
      = 0 := rfl
  have htot : (orphanStore.getSalesAnalytics none ⟨0, 0, 0, 0⟩).totalSales
      = orphanSale.totalAmount + 0 := rfl
  rw [hcat, htot]
  simp [orphanSale]

/-- Witness for C10: with a positive-amount orphaned sale the inequality is
strict. -/
theorem getSalesAnalytics_category_witness :
    catRevSum (posOrphanStore.getSalesAnalytics none ⟨0, 0, 0, 0⟩)
      < (posOrphanStore.getSalesAnalytics none ⟨0, 0, 0, 0⟩).totalSales := by
  refine (getSalesAnalytics_category posOrphanStore none
    ⟨0, 0, 0, 0⟩).2.2.2.2.2 ?_ posOrphanSale ?_ rfl ?_
  · intro sale hsale
    rcases List.mem_singleton.mp hsale with rfl
    simp [posOrphanSale]
  · simp [EcommerceDataStore.selectSales, posOrphanStore]
  · simp [posOrphanSale]

/-! ## Caller-facing product creation (C4) -/

open EcommerceDataStore in
/-- C4 (amended): `createProduct` errors with DuplicateSKU exactly when a
non-empty supplied SKU already belongs (exact match) to a stored product;
otherwise it errors with DuplicateName exactly when some stored product's name
*contains* the new name case-insensitively (the guard reuses the substring scan
`getProductByName`, not an equality check); otherwise it delegates to
`addProduct` and succeeds. -/
theorem createProduct_spec (s : EcommerceDataStore) (productData : ProductData)
    (freshId : String) (now : ℤ) :
    (skuConflict s productData.sku = true →
      createProduct s productData freshId now
        = .error (.duplicateSKU (productData.sku.getD ""))) ∧
    (skuConflict s productData.sku = false →
      (s.getProductByName productData.name).isSome = true →
      createProduct s productData freshId now
        = .error (.duplicateName productData.name)) ∧
    (skuConflict s productData.sku = false →
      (s.getProductByName productData.name).isSome = false →
      createProduct s productData freshId now
        = .ok (s.addProduct productData freshId now)) ∧
    ((∃ e, createProduct s productData freshId now = .error e) ↔
      (skuConflict s productData.sku = true ∨
        ∃ p ∈ s.products.map Prod.snd,
          strIncludes (strLower p.name) (strLower productData.name) = true)) := by
  have hiso : (s.getProductByName productData.name).isSome = true ↔
      ∃ p ∈ s.products.map Prod.snd,
        strIncludes (strLower p.name) (strLower productData.name) = true := by
    unfold EcommerceDataStore.getProductByName
    rw [List.find?_isSome]
  by_cases hsku : skuConflict s productData.sku
  · have herr : createProduct s productData freshId now
        = .error (.duplicateSKU (productData.sku.getD "")) := by
      unfold createProduct
      rw [if_pos hsku]
    refine ⟨fun _ => herr, ?_, ?_, ?_⟩
    · intro hf; rw [hf] at hsku; cases hsku
    · intro hf; rw [hf] at hsku; cases hsku
    · exact ⟨fun _ => Or.inl hsku, fun _ => ⟨_, herr⟩⟩
  · have hsku' : skuConflict s productData.sku = false := by
      simpa using hsku
    by_cases hname : (s.getProductByName productData.name).isSome
    · have herr : createProduct s productData freshId now
          = .error (.duplicateName productData.name) := by
        unfold createProduct
        rw [if_neg hsku, if_pos hname]
      refine ⟨fun hf => ?_, fun _ _ => herr, fun _ hf => ?_, ?_⟩
      · rw [hf] at hsku'; cases hsku'
      · rw [hf] at hname; cases hname
      · exact ⟨fun _ => Or.inr (hiso.mp hname), fun _ => ⟨_, herr⟩⟩
    · have hname' : (s.getProductByName productData.name).isSome = false := by
        simpa using hname
      have hok : createProduct s productData freshId now
          = .ok (s.addProduct productData freshId now) := by
        unfold createProduct
        rw [if_neg hsku, if_neg hname]
      refine ⟨fun hf => ?_, fun _ hf => ?_, fun _ _ => hok, ?_⟩
      · rw [hf] at hsku'; cases hsku'
      · rw [hf] at hname'; cases hname'
      · constructor
        · rintro ⟨e, he⟩
          rw [hok] at he
          cases he
        · rintro (h | h)
          · rw [h] at hsku'; cases hsku'
          · rw [hiso.mpr h] at hname'; cases hname'

/-- Counterexample to C4 as stated: over the two-shirt store, no product has
the same SKU or the same name as the input, yet `createProduct` raises
DuplicateName — because the name guard is a case-insensitive *substring* scan
("Blue T-Shirt" contains "shirt"), not a same-name check. -/
theorem createProduct_counterexample :
    (∀ p ∈ shirtStore.products.map Prod.snd,
        p.sku ≠ cexProductData.sku ∧ p.name ≠ cexProductData.name) ∧
    createProduct shirtStore cexProductData "prod-9" 0
      = .error (.duplicateName "Shirt") := by
  exact ⟨by decide, rfl⟩

/-- Witness for C4: with no SKU and no name conflict, `createProduct` delegates
to `addProduct` and succeeds. -/
theorem createProduct_spec_witness :
    skuConflict emptyStore cexProductData.sku = false ∧
    (emptyStore.getProductByName cexProductData.name).isSome = false ∧
    createProduct emptyStore cexProductData "prod-1" 0
      = .ok (emptyStore.addProduct cexProductData "prod-1" 0) :=
  ⟨rfl, rfl,
    (createProduct_spec emptyStore cexProductData "prod-1" 0).2.2.1 rfl rfl⟩

/-- Witness for C1: a concrete safe operation sequence keeps all stocks ≥ 0. -/
theorem stock_invariant_witness :
    StocksNonneg demoStore ∧
    StocksNonneg (applyOps demoStore
      [RepoOp.updateStock "p1" ⟨.subtract, 9, none⟩ 0,
       RepoOp.addSale lowSaleData "sale-2" 0]) := by
  refine ⟨by decide, stock_invariant _ _ (by decide) ?_⟩
  intro op hop
  rcases List.mem_cons.mp hop with rfl | hop
  · exact fun h => by cases h
  · rcases List.mem_singleton.mp hop with rfl
    trivial

end AriaStore
